import Mathlib

open scoped List

/-!
A verification development for `utils_topn.py`: two ranking/filtering
functions over pandas DataFrames, `get_top_n_by_history` and
`get_top_n_by_news`.  The embedding models a DataFrame as an ordered list
of rows over a list of named columns, with a null-aware value type
(pandas `NaN` is `Val.null`).  The pandas operations used by the source
are modelled by their documented semantics:

* `df.groupby(k)` enumerates the distinct **non-null** key values in
  ascending order (`sort=True`, `dropna=True` defaults);
* `Series.sort_values(ascending=False)` is the reverse of a **stable**
  ascending sort by value (pandas reverses a stable ascending argsort;
  numpy's argsort is insertion sort, hence stable, for the small arrays
  considered here — for very large arrays the tie order is
  implementation-defined, which this model resolves the same way);
* `Series.head(n)` takes the first `n` entries for `n ≥ 0` and all but
  the last `|n|` entries for `n < 0`;
* `df[df[k].isin(keys)]` keeps exactly the rows whose key cell is a
  member of `keys`, in original order;
* `totals.loc[keys]` re-indexes the series by `keys`, in that order;
* `nunique` counts distinct non-null values; `sum` skips nulls.
-/

/-- A cell value: pandas `NaN` is `null`; strings and integers cover the
key / date / count columns the source manipulates. -/
inductive Val where
  | null : Val
  | str (s : String) : Val
  | int (z : Int) : Val
deriving DecidableEq, Repr

/-- The numeric reading of a cell, as used by `Series.sum` on a numeric
column: nulls are skipped (contribute 0).  Non-numeric cells also read
as 0; the source only sums count columns, which are numeric. -/
def Val.toInt : Val → Int
  | Val.null => 0
  | Val.str _ => 0
  | Val.int z => z

/-- The optional reading of a cell: `none` for a null, `some` otherwise. -/
def Val.toOpt : Val → Option Val
  | Val.null => none
  | v => some v

/-- Lexicographic comparison of char lists by code point (the order in
which pandas sorts object-dtype strings). -/
def chListLeb : List Char → List Char → Bool
  | [], _ => true
  | _ :: _, [] => false
  | a :: as, b :: bs =>
    if a.toNat < b.toNat then true
    else if b.toNat < a.toNat then false
    else chListLeb as bs

/-- Lexicographic comparison of strings by code point. -/
def strLeb (s t : String) : Bool := chListLeb s.data t.data

/-- Total order on cell values used when `groupby` sorts its group keys:
nulls first, then integers by value, then strings lexicographically.
(A real key column is homogeneous, so the cross-kind cases are never
exercised; nulls are dropped by `groupby` before sorting anyway.) -/
def Val.leb : Val → Val → Bool
  | Val.null, _ => true
  | Val.int _, Val.null => false
  | Val.int a, Val.int b => decide (a ≤ b)
  | Val.int _, Val.str _ => true
  | Val.str _, Val.null => false
  | Val.str _, Val.int _ => false
  | Val.str a, Val.str b => strLeb a b

/-- A DataFrame: named columns and an ordered list of rows, each row a
list of cells aligned with `cols`. -/
structure DataFrame where
  cols : List String
  rows : List (List Val)
deriving DecidableEq, Repr

/-- The cell of row `r` in column `c` (the first column of that name,
`null` when the column is absent or the row is short). -/
def cellAt (df : DataFrame) (c : String) (r : List Val) : Val :=
  match df.cols.indexOf? c with
  | some i => r.getD i Val.null
  | none => Val.null

/-- The column `c` as a list of cells, one per row (`df[c]`). -/
def colVals (df : DataFrame) (c : String) : List Val :=
  df.rows.map (cellAt df c)

/-- Insert `a` into `l` before the first element `b` with `le a b`
(the inner step of a stable ascending insertion sort). -/
def insertLe (le : α → α → Bool) (a : α) : List α → List α
  | [] => [a]
  | b :: l => if le a b then a :: b :: l else b :: insertLe le a l

/-- Stable ascending sort by `le` (insertion sort): models a stable
ascending argsort as performed by `sort_values` / `groupby`. -/
def sortAsc (le : α → α → Bool) : List α → List α
  | [] => []
  | a :: l => insertLe le a (sortAsc le l)

/-- The distinct non-null values of column `c`, in ascending order: the
group keys enumerated by `df.groupby(c)` (defaults `sort=True`,
`dropna=True`). -/
def keyVals (df : DataFrame) (c : String) : List Val :=
  (sortAsc Val.leb ((colVals df c).filter (fun v => decide (v ≠ Val.null)))).dedup

/-- The rows of `df` whose `c`-cell equals `v`: the group of key `v`, in
original row order. -/
def groupRows (df : DataFrame) (c : String) (v : Val) : List (List Val) :=
  df.rows.filter (fun r => decide (cellAt df c r = v))

/-- `df.groupby(t)[d].nunique()` for the group of key `v`: the number of
distinct non-null `d`-cells within the group. -/
def nuniqueIn (df : DataFrame) (t d : String) (v : Val) : Int :=
  ((((groupRows df t v).map (cellAt df d)).filter
      (fun w => decide (w ≠ Val.null))).dedup.length : Int)

/-- `df.groupby(t).size()` for the group of key `v`: its row count. -/
def sizeIn (df : DataFrame) (t : String) (v : Val) : Int :=
  ((groupRows df t v).length : Int)

/-- `df.groupby(t)[c].sum()` for the group of key `v`: the sum of the
numeric readings of column `c` over the group (nulls skipped). -/
def sumIn (df : DataFrame) (t c : String) (v : Val) : Int :=
  (((groupRows df t v).map (fun r => (cellAt df c r).toInt)).sum : Int)

/-- The measure aggregated by `get_top_n_by_history`:
`nunique` of `date_col` when that column is present, group size
otherwise (lines 17–20 of the source). -/
def historyMeasure (df : DataFrame) (t d : String) (v : Val) : Int :=
  if d ∈ df.cols then nuniqueIn df t d v else sizeIn df t v

/-- The measure aggregated by `get_top_n_by_news` (lines 41–46 of the
source): Python's `if news_count_col and news_count_col in
news_df.columns` — the override is used only when it is given AND truthy
(a non-empty string) AND present; `elif "news_count" in news_df.columns`;
`else` group size. -/
def newsMeasure (df : DataFrame) (t : String) (ncc : Option String) (v : Val) : Int :=
  match ncc with
  | some c =>
      if (!(c == "")) && decide (c ∈ df.cols) then sumIn df t c v
      else if "news_count" ∈ df.cols then sumIn df t "news_count" v
      else sizeIn df t v
  | none =>
      if "news_count" ∈ df.cols then sumIn df t "news_count" v
      else sizeIn df t v

/-- The aggregated series (`counts` / `totals` in the source): one
`(key, measure)` pair per group, in the `groupby` enumeration order
(ascending keys). -/
def series (df : DataFrame) (t : String) (m : Val → Int) : List (Val × Int) :=
  (keyVals df t).map (fun v => (v, m v))

/-- `Series.sort_values(ascending=False)`: the reverse of a stable
ascending sort by value — so ties come out in the reverse of the input
(enumeration) order. -/
def sortDesc (s : List (Val × Int)) : List (Val × Int) :=
  (sortAsc (fun a b => decide (a.2 ≤ b.2)) s).reverse

/-- `Series.head(n)` with pandas semantics: the first `n` entries when
`n ≥ 0`, all but the last `|n|` entries when `n < 0`. -/
def headN (xs : List α) (n : Int) : List α :=
  if 0 ≤ n then xs.take n.toNat else xs.take (xs.length - (-n).toNat)

/-- The ranked key list returned by either ranker: the sorted series'
keys, whole for `n = -1` (line 23 / 49), through `head(n)` otherwise
(line 26 / 52). -/
def topOf (df : DataFrame) (t : String) (m : Val → Int) (n : Int) : List Val :=
  if n = -1 then (sortDesc (series df t m)).map Prod.fst
  else (headN (sortDesc (series df t m)) n).map Prod.fst

/-- `df[df[t].isin(keys)]`: the rows whose key cell is in `keys`, in
original order, under the same columns. -/
def filterIsin (df : DataFrame) (t : String) (keys : List Val) : DataFrame :=
  { cols := df.cols
    rows := df.rows.filter (fun r => decide (cellAt df t r ∈ keys)) }

/-- The subset returned by either ranker: a copy of the whole input for
`n = -1` (line 24 / 50), the `isin`-filtered copy otherwise
(line 27 / 53). -/
def subsetOf (df : DataFrame) (t : String) (m : Val → Int) (n : Int) : DataFrame :=
  if n = -1 then df else filterIsin df t (topOf df t m n)

/-- The first series entry with key `v`, read as its value
(`totals.loc[v]`; 0 is a dummy for the unreachable missing-key case). -/
def seriesGet (s : List (Val × Int)) (v : Val) : Int :=
  ((s.find? (fun p => decide (p.1 = v))).map Prod.snd).getD 0

/-- `totals.loc[keys]`: the series re-indexed by `keys`, in that order
(line 51 / 55: `totals.loc[top_tickers]`). -/
def locSeries (s : List (Val × Int)) (keys : List Val) : List (Val × Int) :=
  keys.map (fun v => (v, seriesGet s v))

/-- The pair returned by `get_top_n_by_history`. -/
structure HistoryResult where
  subset : DataFrame
  topTickers : List Val
deriving DecidableEq, Repr

/-- The triple returned by `get_top_n_by_news`. -/
structure NewsResult where
  subset : DataFrame
  topTickers : List Val
  totals : List (Val × Int)
deriving DecidableEq, Repr

/-- The error message raised for a missing key column (line 16 / 40 of
the source; the same f-string in both functions). -/
def missingColMsg (t : String) : String :=
  "ticker_col '" ++ t ++ "' not found in DataFrame columns"

/-- `get_top_n_by_history(df, ticker_col, date_col, n)`
(lines 7–28 of the source): raise `KeyError` when `ticker_col` is
missing; aggregate the history measure per ticker; for `n == -1` return
the whole frame and all tickers sorted by measure descending; otherwise
return the `head(n)` tickers and the `isin`-filtered copy. -/
def get_top_n_by_history (df : DataFrame) (t d : String) (n : Int) :
    Except String HistoryResult :=
  if t ∈ df.cols then
    Except.ok { subset := subsetOf df t (historyMeasure df t d) n
                topTickers := topOf df t (historyMeasure df t d) n }
  else Except.error (missingColMsg t)

/-- `get_top_n_by_news(news_df, ticker_col, news_count_col, n)`
(lines 31–55 of the source): raise `KeyError` when `ticker_col` is
missing; aggregate the news measure per ticker; select as in
`get_top_n_by_history`; additionally return `totals.loc[top_tickers]`. -/
def get_top_n_by_news (df : DataFrame) (t : String) (ncc : Option String) (n : Int) :
    Except String NewsResult :=
  if t ∈ df.cols then
    Except.ok { subset := subsetOf df t (newsMeasure df t ncc) n
                topTickers := topOf df t (newsMeasure df t ncc) n
                totals := locSeries (series df t (newsMeasure df t ncc))
                           (topOf df t (newsMeasure df t ncc) n) }
  else Except.error (missingColMsg t)

/-- The error component of a result, when any. -/
def exceptErr : Except String β → Option String
  | Except.error e => some e
  | Except.ok _ => none

/-- The complete ranking of either ranker: every group key, sorted by
measure descending (what `n = -1` returns, and what `head(n)` is taken
from). -/
def fullRank (df : DataFrame) (t : String) (m : Val → Int) : List Val :=
  (sortDesc (series df t m)).map Prod.fst

/-- The distinct values of a list in the order first encountered. -/
def firstEncounter (l : List Val) : List Val :=
  l.foldl (fun acc v => if v ∈ acc then acc else acc ++ [v]) []

/-- Modelled from the spec's words (tie-break policy of §4.1/§4.2, as
asserted by claim C4): the group keys sorted by measure descending with
a *stable* sort, the groups being enumerated in the order in which they
are first encountered in the input dataset. -/
def specStableTop (df : DataFrame) (t : String) (m : Val → Int) : List Val :=
  ((sortAsc (fun a b : Val × Int => decide (b.2 ≤ a.2))
      ((firstEncounter ((colVals df t).filter (fun v => decide (v ≠ Val.null)))).map
        (fun v => (v, m v)))).map Prod.fst)

deriving instance DecidableEq for Except

/-- A two-row frame with two tied groups, `"A"` before `"B"`:
distinguishes first-encounter tie order from the implementation's. -/
def dfTie : DataFrame := { cols := ["t"], rows := [[Val.str "A"], [Val.str "B"]] }

/-- A one-row frame whose only key cell is null. -/
def dfNull : DataFrame := { cols := ["t"], rows := [[Val.null]] }

/-- A two-row frame with one null key cell and one string key. -/
def dfNull2 : DataFrame := { cols := ["t"], rows := [[Val.null], [Val.str "A"]] }

/-- A frame with a column whose name is the empty string, holding 5. -/
def dfEmptyCol : DataFrame := { cols := ["t", ""], rows := [[Val.str "A", Val.int 5]] }

/-- A news frame with an explicit count column named `"cnt"`. -/
def dfNews : DataFrame :=
  { cols := ["ticker", "cnt"]
    rows := [[Val.str "A", Val.int 4], [Val.str "A", Val.int 6],
             [Val.str "B", Val.int 20]] }

/-- A three-group frame (sizes 1, 2, 3) used to instantiate theorems. -/
def dfW : DataFrame :=
  { cols := ["ticker", "date"]
    rows := [[Val.str "A", Val.int 1],
             [Val.str "B", Val.int 1], [Val.str "B", Val.int 2],
             [Val.str "C", Val.int 1], [Val.str "C", Val.int 2], [Val.str "C", Val.int 3]] }

/-! ### Generic facts about the stable insertion sort -/

theorem insertLe_perm (le : α → α → Bool) (a : α) (l : List α) :
    insertLe le a l ~ a :: l := by
  induction l with
  | nil => exact List.Perm.refl _
  | cons b l ih =>
    simp only [insertLe]
    split
    · exact List.Perm.refl _
    · exact (List.Perm.cons b ih).trans (List.Perm.swap a b l)

theorem sortAsc_perm (le : α → α → Bool) (l : List α) : sortAsc le l ~ l := by
  induction l with
  | nil => exact List.Perm.refl _
  | cons a l ih => exact (insertLe_perm le a (sortAsc le l)).trans (List.Perm.cons a ih)

theorem mem_insertLe {le : α → α → Bool} {a x : α} {l : List α} :
    x ∈ insertLe le a l ↔ x = a ∨ x ∈ l := by
  rw [(insertLe_perm le a l).mem_iff, List.mem_cons]

theorem sorted_insertLe {le : α → α → Bool}
    (htrans : ∀ a b c, le a b → le b c → le a c)
    (htot : ∀ a b, le a b ∨ le b a) (a : α) {l : List α}
    (hl : l.Pairwise (fun x y => le x y)) :
    (insertLe le a l).Pairwise (fun x y => le x y) := by
  induction l with
  | nil => simp [insertLe]
  | cons b l ih =>
    rcases List.pairwise_cons.mp hl with ⟨hb, hl'⟩
    simp only [insertLe]
    split
    · rename_i hab
      refine List.pairwise_cons.mpr ⟨?_, hl⟩
      intro x hx
      rcases List.mem_cons.mp hx with rfl | hx'
      · exact hab
      · exact htrans a b x hab (hb x hx')
    · rename_i hab
      have hba : le b a := (htot a b).resolve_left (by simpa using hab)
      refine List.pairwise_cons.mpr ⟨?_, ih hl'⟩
      intro x hx
      rcases mem_insertLe.mp hx with rfl | hx'
      · exact hba
      · exact hb x hx'

theorem sorted_sortAsc {le : α → α → Bool}
    (htrans : ∀ a b c, le a b → le b c → le a c)
    (htot : ∀ a b, le a b ∨ le b a) (l : List α) :
    (sortAsc le l).Pairwise (fun x y => le x y) := by
  induction l with
  | nil => simp [sortAsc]
  | cons a l ih => exact sorted_insertLe htrans htot a ih

theorem sublist_insertLe (le : α → α → Bool) (a : α) (l : List α) :
    l <+ insertLe le a l := by
  induction l with
  | nil => simp [insertLe]
  | cons b l ih =>
    simp only [insertLe]
    split
    · exact List.Sublist.cons a (List.Sublist.refl _)
    · exact List.Sublist.cons₂ b ih

theorem pair_sublist_insertLe {le : α → α → Bool} {a b : α}
    (hab : le a b) {s : List α} (hb : b ∈ s) :
    [a, b] <+ insertLe le a s := by
  induction s with
  | nil => cases hb
  | cons c s ih =>
    simp only [insertLe]
    split
    · exact List.Sublist.cons₂ a (List.singleton_sublist.mpr hb)
    · rename_i hac
      rcases List.mem_cons.mp hb with rfl | hb'
      · exact absurd hab (by simpa using hac)
      · exact List.Sublist.cons c (ih hb')

theorem pair_sublist_sortAsc {le : α → α → Bool} {a b : α}
    (hab : le a b) {l : List α} (h : [a, b] <+ l) :
    [a, b] <+ sortAsc le l := by
  induction l with
  | nil => cases h
  | cons x l ih =>
    cases h with
    | cons _ h' =>
      exact (ih h').trans (sublist_insertLe le x (sortAsc le l))
    | cons₂ _ h' =>
      exact pair_sublist_insertLe hab
        ((sortAsc_perm le l).mem_iff.mpr (List.singleton_sublist.mp h'))

theorem two_mem_sublist {a b : α} {l : List α}
    (ha : a ∈ l) (hb : b ∈ l) (hne : a ≠ b) :
    [a, b] <+ l ∨ [b, a] <+ l := by
  induction l with
  | nil => cases ha
  | cons x l ih =>
    rcases List.mem_cons.mp ha with rfl | ha'
    · have hb' : b ∈ l := by
        rcases List.mem_cons.mp hb with rfl | h
        · exact absurd rfl hne
        · exact h
      exact Or.inl (List.Sublist.cons₂ a (List.singleton_sublist.mpr hb'))
    · rcases List.mem_cons.mp hb with rfl | hb'
      · exact Or.inr (List.Sublist.cons₂ b (List.singleton_sublist.mpr ha'))
      · exact (ih ha' hb').imp (List.Sublist.cons x) (List.Sublist.cons x)

theorem not_pair_swap {a b : α} {l : List α}
    (hnd : l.Nodup) (h1 : [a, b] <+ l) (h2 : [b, a] <+ l) : False := by
  induction l with
  | nil => cases h1
  | cons x l ih =>
    have hx : x ∉ l := (List.nodup_cons.mp hnd).1
    have hl : l.Nodup := (List.nodup_cons.mp hnd).2
    cases h1 with
    | cons _ h1' =>
      cases h2 with
      | cons _ h2' => exact ih hl h1' h2'
      | cons₂ _ h2' => exact hx (h1'.subset (by simp))
    | cons₂ _ h1' =>
      cases h2 with
      | cons _ h2' => exact hx (h2'.subset (by simp))
      | cons₂ _ h2' => exact hx (h2'.subset (by simp))

/-! ### The key order is total and transitive -/

theorem chListLeb_total : ∀ (as bs : List Char), chListLeb as bs ∨ chListLeb bs as
  | [], _ => Or.inl rfl
  | _ :: _, [] => Or.inr rfl
  | a :: as, b :: bs => by
    simp only [chListLeb]
    rcases Nat.lt_trichotomy a.toNat b.toNat with h | h | h
    · left
      simp [h]
    · have h1 : ¬ a.toNat < b.toNat := by omega
      have h2 : ¬ b.toNat < a.toNat := by omega
      simpa [h1, h2] using chListLeb_total as bs
    · right
      simp [h]

theorem chListLeb_trans : ∀ (as bs cs : List Char),
    chListLeb as bs → chListLeb bs cs → chListLeb as cs
  | [], _, _, _, _ => rfl
  | _ :: _, [], _, h, _ => by cases h
  | _ :: _, _ :: _, [], _, h => by cases h
  | a :: as, b :: bs, c :: cs, h1, h2 => by
    simp only [chListLeb] at h1 h2 ⊢
    by_cases hab : a.toNat < b.toNat <;> by_cases hba : b.toNat < a.toNat <;>
      by_cases hbc : b.toNat < c.toNat <;> by_cases hcb : c.toNat < b.toNat <;>
      simp [hab, hba, hbc, hcb] at h1 h2 ⊢ <;>
      first
        | omega
        | (exact absurd (Nat.lt_trans hab hbc) (by omega))
        | (exact Or.inl (by omega))
        | (refine Or.inr ⟨by omega, ?_⟩
           exact chListLeb_trans as bs cs h1 h2)

theorem Val.leb_total (a b : Val) : Val.leb a b ∨ Val.leb b a := by
  cases a <;> cases b <;> simp [Val.leb, strLeb] <;>
    first
      | exact Int.le_total _ _
      | exact chListLeb_total _ _

theorem Val.leb_trans (a b c : Val) : Val.leb a b → Val.leb b c → Val.leb a c := by
  cases a <;> cases b <;> cases c <;>
    simp [Val.leb, strLeb] <;>
    first
      | exact fun h1 h2 => Int.le_trans h1 h2
      | exact fun h1 h2 => chListLeb_trans _ _ _ h1 h2

/-! ### Plumbing: group keys, the aggregated series, and the ranking -/

theorem mem_keyVals {df : DataFrame} {t : String} {v : Val} :
    v ∈ keyVals df t ↔ v ∈ colVals df t ∧ v ≠ Val.null := by
  unfold keyVals
  rw [List.mem_dedup, (sortAsc_perm _ _).mem_iff, List.mem_filter]
  simp

theorem keyVals_nodup (df : DataFrame) (t : String) : (keyVals df t).Nodup :=
  List.nodup_dedup _

theorem keyVals_sorted (df : DataFrame) (t : String) :
    (keyVals df t).Pairwise (fun a b => Val.leb a b) := by
  unfold keyVals
  exact (sorted_sortAsc (fun a b c => Val.leb_trans a b c) Val.leb_total _).sublist
    (List.dedup_sublist _)

theorem series_map_fst (df : DataFrame) (t : String) (m : Val → Int) :
    (series df t m).map Prod.fst = keyVals df t := by
  unfold series
  rw [List.map_map]
  exact List.map_id _

theorem series_nodup (df : DataFrame) (t : String) (m : Val → Int) :
    (series df t m).Nodup := by
  unfold series
  exact (keyVals_nodup df t).map (fun a b h => congrArg Prod.fst h)

theorem mem_series {df : DataFrame} {t : String} {m : Val → Int} {p : Val × Int} :
    p ∈ series df t m ↔ p.1 ∈ keyVals df t ∧ p.2 = m p.1 := by
  unfold series
  rw [List.mem_map]
  constructor
  · rintro ⟨v, hv, rfl⟩
    exact ⟨hv, rfl⟩
  · rintro ⟨hv, hp⟩
    exact ⟨p.1, hv, by rw [← hp]⟩

theorem seriesGet_map (m : Val → Int) {l : List Val} {v : Val} (hv : v ∈ l) :
    seriesGet (l.map (fun w => (w, m w))) v = m v := by
  induction l with
  | nil => cases hv
  | cons w l ih =>
    by_cases h : w = v
    · subst h
      simp [seriesGet, List.find?]
    · have hv' : v ∈ l := by
        rcases List.mem_cons.mp hv with rfl | h'
        · exact absurd rfl h
        · exact h'
      simpa [seriesGet, List.find?, h] using ih hv'

theorem seriesGet_series {df : DataFrame} {t : String} {m : Val → Int} {v : Val}
    (hv : v ∈ keyVals df t) : seriesGet (series df t m) v = m v :=
  seriesGet_map m hv

theorem sortDesc_perm (s : List (Val × Int)) : sortDesc s ~ s :=
  (List.reverse_perm _).trans (sortAsc_perm _ s)

theorem sortDesc_sorted (s : List (Val × Int)) :
    (sortDesc s).Pairwise (fun p q => q.2 ≤ p.2) := by
  unfold sortDesc
  rw [List.pairwise_reverse]
  have := @sorted_sortAsc (Val × Int) (fun a b => decide (a.2 ≤ b.2))
    (fun a b c h1 h2 => by
      simp only [decide_eq_true_eq] at h1 h2 ⊢
      exact le_trans h1 h2)
    (fun a b => by
      simp only [decide_eq_true_eq]
      exact le_total a.2 b.2) s
  exact this.imp (fun h => by simpa using h)

theorem sortDesc_stable (s : List (Val × Int)) (hnd : s.Nodup) :
    (sortDesc s).Pairwise
      (fun p q => q.2 < p.2 ∨ (q.2 = p.2 ∧ [q, p] <+ s)) := by
  rw [List.pairwise_iff_forall_sublist]
  intro p q hpq
  have h1 : [q, p] <+ sortAsc (fun a b : Val × Int => decide (a.2 ≤ b.2)) s := by
    have h' := hpq.reverse
    simpa [sortDesc] using h'
  have hAscNodup : (sortAsc (fun a b : Val × Int => decide (a.2 ≤ b.2)) s).Nodup :=
    hnd.perm (sortAsc_perm _ s).symm
  have hle : q.2 ≤ p.2 := by
    have hs := @sorted_sortAsc (Val × Int) (fun a b => decide (a.2 ≤ b.2))
      (fun a b c h1 h2 => by
        simp only [decide_eq_true_eq] at h1 h2 ⊢
        exact le_trans h1 h2)
      (fun a b => by
        simp only [decide_eq_true_eq]
        exact le_total a.2 b.2) s
    have := List.pairwise_iff_forall_sublist.mp hs h1
    simpa using this
  rcases lt_or_eq_of_le hle with hlt | heq
  · exact Or.inl hlt
  · refine Or.inr ⟨heq, ?_⟩
    have hne : q ≠ p := by
      have := List.pairwise_iff_forall_sublist.mp hAscNodup h1
      exact this
    have hq : q ∈ s := (sortAsc_perm _ s).mem_iff.mp (h1.subset (by simp))
    have hp : p ∈ s := (sortAsc_perm _ s).mem_iff.mp (h1.subset (by simp))
    rcases two_mem_sublist hq hp hne with h | h
    · exact h
    · exfalso
      have hps : [p, q] <+ sortAsc (fun a b : Val × Int => decide (a.2 ≤ b.2)) s :=
        pair_sublist_sortAsc (by simp [heq]) h
      exact not_pair_swap hAscNodup hps h1

theorem fullRank_perm (df : DataFrame) (t : String) (m : Val → Int) :
    fullRank df t m ~ keyVals df t := by
  unfold fullRank
  have h := (sortDesc_perm (series df t m)).map Prod.fst
  rwa [series_map_fst] at h

theorem fullRank_nodup (df : DataFrame) (t : String) (m : Val → Int) :
    (fullRank df t m).Nodup :=
  (fullRank_perm df t m).symm.nodup (keyVals_nodup df t)

theorem topOf_neg1 (df : DataFrame) (t : String) (m : Val → Int) :
    topOf df t m (-1) = fullRank df t m := by
  simp [topOf, fullRank]

theorem topOf_ne_neg1 {df : DataFrame} {t : String} {m : Val → Int} {n : Int}
    (h : ¬ n = -1) :
    topOf df t m n =
      (fullRank df t m).take
        (if 0 ≤ n then n.toNat else (fullRank df t m).length - (-n).toNat) := by
  unfold topOf fullRank headN
  rw [if_neg h]
  split
  · rw [List.map_take]
  · rw [List.map_take, List.length_map]

theorem topOf_sublist_fullRank (df : DataFrame) (t : String) (m : Val → Int) (n : Int) :
    topOf df t m n <+ fullRank df t m := by
  by_cases h : n = -1
  · rw [h, topOf_neg1]
  · rw [topOf_ne_neg1 h]
    exact List.take_sublist _ _

theorem topOf_nodup (df : DataFrame) (t : String) (m : Val → Int) (n : Int) :
    (topOf df t m n).Nodup :=
  (topOf_sublist_fullRank df t m n).nodup (fullRank_nodup df t m)

theorem mem_topOf {df : DataFrame} {t : String} {m : Val → Int} {n : Int} {v : Val}
    (h : v ∈ topOf df t m n) : v ∈ keyVals df t :=
  (fullRank_perm df t m).mem_iff.mp ((topOf_sublist_fullRank df t m n).subset h)

theorem topOf_pairwise (df : DataFrame) (t : String) (m : Val → Int) (n : Int) :
    (topOf df t m n).Pairwise
      (fun a b => m b < m a ∨ (m b = m a ∧ [b, a] <+ keyVals df t)) := by
  have hmem : ∀ p ∈ sortDesc (series df t m), p.2 = m p.1 := by
    intro p hp
    exact (mem_series.mp ((sortDesc_perm _).mem_iff.mp hp)).2
  have hfull : (fullRank df t m).Pairwise
      (fun a b => m b < m a ∨ (m b = m a ∧ [b, a] <+ keyVals df t)) := by
    unfold fullRank
    rw [List.pairwise_map]
    refine (sortDesc_stable (series df t m) (series_nodup df t m)).imp_of_mem ?_
    intro p q hp hq hpq
    rcases hpq with hlt | ⟨heq, hsub⟩
    · exact Or.inl (by rw [← hmem p hp, ← hmem q hq]; exact hlt)
    · refine Or.inr ⟨by rw [← hmem p hp, ← hmem q hq]; exact heq, ?_⟩
      have := hsub.map Prod.fst
      rwa [series_map_fst] at this
  exact hfull.sublist (topOf_sublist_fullRank df t m n)

theorem subsetOf_cols (df : DataFrame) (t : String) (m : Val → Int) (n : Int) :
    (subsetOf df t m n).cols = df.cols := by
  unfold subsetOf filterIsin
  split <;> rfl

theorem subsetOf_rows_sublist (df : DataFrame) (t : String) (m : Val → Int) (n : Int) :
    (subsetOf df t m n).rows <+ df.rows := by
  unfold subsetOf filterIsin
  split
  · exact List.Sublist.refl _
  · exact List.filter_sublist _

theorem mem_subsetOf_rows {df : DataFrame} {t : String} {m : Val → Int} {n : Int}
    (h : ¬ n = -1) {r : List Val} :
    r ∈ (subsetOf df t m n).rows ↔ r ∈ df.rows ∧ cellAt df t r ∈ topOf df t m n := by
  unfold subsetOf filterIsin
  rw [if_neg h]
  simp [List.mem_filter]

theorem subsetOf_neg1 (df : DataFrame) (t : String) (m : Val → Int) :
    subsetOf df t m (-1) = df := by
  simp [subsetOf]

theorem hist_ok_iff {df : DataFrame} {t d : String} {n : Int} {r : HistoryResult} :
    get_top_n_by_history df t d n = Except.ok r ↔
      t ∈ df.cols ∧
        r = { subset := subsetOf df t (historyMeasure df t d) n
              topTickers := topOf df t (historyMeasure df t d) n } := by
  unfold get_top_n_by_history
  split
  · rename_i h
    simp only [Except.ok.injEq]
    constructor
    · intro he
      exact ⟨h, he.symm⟩
    · intro he
      exact he.2.symm
  · rename_i h
    simp only [reduceCtorEq, false_iff, not_and]
    intro hc
    exact absurd hc h

theorem news_ok_iff {df : DataFrame} {t : String} {ncc : Option String} {n : Int}
    {r : NewsResult} :
    get_top_n_by_news df t ncc n = Except.ok r ↔
      t ∈ df.cols ∧
        r = { subset := subsetOf df t (newsMeasure df t ncc) n
              topTickers := topOf df t (newsMeasure df t ncc) n
              totals := locSeries (series df t (newsMeasure df t ncc))
                         (topOf df t (newsMeasure df t ncc) n) } := by
  unfold get_top_n_by_news
  split
  · rename_i h
    simp only [Except.ok.injEq]
    constructor
    · intro he
      exact ⟨h, he.symm⟩
    · intro he
      exact he.2.symm
  · rename_i h
    simp only [reduceCtorEq, false_iff, not_and]
    intro hc
    exact absurd hc h

/-! ### The claims -/

/-- C1: for both rankers the operation fails — with the error message
naming the missing column — exactly when the key column `t` is absent
from the dataset's columns (the model's analogue of the `KeyError` the
source raises before aggregating, playing the spec's
`MissingColumnError`); every other input succeeds. -/
theorem C1_missing_key_column (df : DataFrame) (t d : String)
    (ncc : Option String) (n : Int) :
    exceptErr (get_top_n_by_history df t d n) =
      (if t ∈ df.cols then none else some (missingColMsg t)) ∧
    exceptErr (get_top_n_by_news df t ncc n) =
      (if t ∈ df.cols then none else some (missingColMsg t)) ∧
    missingColMsg t = "ticker_col '" ++ t ++ "' not found in DataFrame columns" := by
  by_cases h : t ∈ df.cols <;>
    simp [get_top_n_by_history, get_top_n_by_news, exceptErr, h, missingColMsg]

theorem filterMap_toOpt (l : List Val) :
    l.filterMap Val.toOpt = l.filter (fun w => decide (w ≠ Val.null)) := by
  induction l with
  | nil => rfl
  | cons w l ih => cases w <;> simp [Val.toOpt, ih]

/-- C7: the per-group measure of `get_top_n_by_history` is the number
of distinct values of the date column within the group — duplicates
collapse and nulls collapse away (`nunique` drops them) — whenever the
date column is present, and the group's row count when it is absent. -/
theorem C7_history_measure_spec (df : DataFrame) (t d : String) (v : Val) :
    historyMeasure df t d v =
      if d ∈ df.cols then
        ((((groupRows df t v).map (cellAt df d)).filterMap Val.toOpt).toFinset.card : Int)
      else ((groupRows df t v).length : Int) := by
  unfold historyMeasure nuniqueIn sizeIn
  split
  · rw [List.card_toFinset, filterMap_toOpt]
  · rfl

/-- C6 (amended): the news measure priority, with "explicitly given"
corrected to "explicitly given as a *non-empty* string" (Python's
truthiness test `if news_count_col and ...` ignores an explicitly given
empty-string override — see the counterexample): a non-empty, present
`count_column` is summed; otherwise a present `"news_count"` column is
summed; otherwise rows are counted. -/
theorem C6_news_measure_priority (df : DataFrame) (t : String) (v : Val) :
    (∀ c : String, c ≠ "" → c ∈ df.cols →
        newsMeasure df t (some c) v = sumIn df t c v) ∧
    (∀ c : String, c = "" ∨ c ∉ df.cols →
        newsMeasure df t (some c) v = newsMeasure df t none v) ∧
    (newsMeasure df t none v =
      if "news_count" ∈ df.cols then sumIn df t "news_count" v
      else sizeIn df t v) := by
  refine ⟨?_, ?_, rfl⟩
  · intro c hne hmem
    simp [newsMeasure, hne, hmem]
  · intro c h
    rcases h with rfl | h
    · simp [newsMeasure]
    · simp [newsMeasure, h]

/-- C6 witness: on `dfNews` the non-empty override `"cnt"` is summed
(group `"A"` totals 10), while an empty-string override behaves like no
override. -/
theorem C6_news_measure_priority_witness :
    newsMeasure dfNews "ticker" (some "cnt") (Val.str "A") =
      sumIn dfNews "ticker" "cnt" (Val.str "A") ∧
    newsMeasure dfNews "ticker" (some "") (Val.str "A") =
      newsMeasure dfNews "ticker" none (Val.str "A") ∧
    sumIn dfNews "ticker" "cnt" (Val.str "A") = 10 :=
  ⟨(C6_news_measure_priority dfNews "ticker" (Val.str "A")).1 "cnt"
      (by decide) (by decide),
   (C6_news_measure_priority dfNews "ticker" (Val.str "A")).2.1 "" (Or.inl rfl),
   by decide⟩

/-- C6 counterexample: with `count_column` explicitly given as the
empty string and a column named `""` present (its group sum is 5), the
claim's priority order demands the sum 5, but the code's totals report
the row count 1. -/
theorem C6_counterexample :
    get_top_n_by_news dfEmptyCol "t" (some "") 1 =
      Except.ok { subset := dfEmptyCol
                  topTickers := [Val.str "A"]
                  totals := [(Val.str "A", 1)] } ∧
    sumIn dfEmptyCol "t" "" (Val.str "A") = 5 ∧ (1 : Int) ≠ 5 := by
  decide

/-- C4 counterexample: on a frame whose rows put ticker `"A"` before
`"B"` with equal measures (1 row each, no date column), the code
returns `["B", "A"]`, while a stable descending sort over the
first-encountered group order — what the claim asserts — yields
`["A", "B"]`. -/
theorem C4_counterexample :
    get_top_n_by_history dfTie "t" "date" (-1) =
      Except.ok { subset := dfTie, topTickers := [Val.str "B", Val.str "A"] } ∧
    historyMeasure dfTie "t" "date" (Val.str "A") =
      historyMeasure dfTie "t" "date" (Val.str "B") ∧
    specStableTop dfTie "t" (historyMeasure dfTie "t" "date") =
      [Val.str "A", Val.str "B"] ∧
    ([Val.str "B", Val.str "A"] : List Val) ≠ [Val.str "A", Val.str "B"] := by
  decide

/-- C4 (amended): for both rankers the returned key list is sorted by
measure descending, and groups with equal measure appear in the
*reverse* of the order in which the aggregation enumerates them
(`[b, a] <+ keyVals df t`: of two tied keys the later one in the output
is the earlier one in the enumeration), where the aggregation
enumerates groups in ascending key order — not in the first-encountered
input order the claim states. -/
theorem C4_tie_order_amended (df : DataFrame) (t d : String) (ncc : Option String)
    (n : Int) (r : HistoryResult) (rn : NewsResult) :
    ((keyVals df t).Pairwise (fun a b => Val.leb a b)) ∧
    (get_top_n_by_history df t d n = Except.ok r →
      r.topTickers.Pairwise (fun a b =>
        historyMeasure df t d b < historyMeasure df t d a ∨
          (historyMeasure df t d b = historyMeasure df t d a ∧
            [b, a] <+ keyVals df t))) ∧
    (get_top_n_by_news df t ncc n = Except.ok rn →
      rn.topTickers.Pairwise (fun a b =>
        newsMeasure df t ncc b < newsMeasure df t ncc a ∨
          (newsMeasure df t ncc b = newsMeasure df t ncc a ∧
            [b, a] <+ keyVals df t))) := by
  refine ⟨keyVals_sorted df t, ?_, ?_⟩
  · intro h
    obtain ⟨-, rfl⟩ := hist_ok_iff.mp h
    exact topOf_pairwise df t _ n
  · intro h
    obtain ⟨-, rfl⟩ := news_ok_iff.mp h
    exact topOf_pairwise df t _ n

/-- C4 witness: the amended claim instantiated on `dfW` at `n = 3`,
where both rankers return `["C", "B", "A"]`. -/
theorem C4_tie_order_witness :
    (keyVals dfW "ticker").Pairwise (fun a b => Val.leb a b) ∧
    (({ subset := dfW
        topTickers := [Val.str "C", Val.str "B", Val.str "A"] } :
          HistoryResult)).topTickers.Pairwise (fun a b =>
      historyMeasure dfW "ticker" "date" b < historyMeasure dfW "ticker" "date" a ∨
        (historyMeasure dfW "ticker" "date" b = historyMeasure dfW "ticker" "date" a ∧
          [b, a] <+ keyVals dfW "ticker")) ∧
    (({ subset := dfW
        topTickers := [Val.str "C", Val.str "B", Val.str "A"]
        totals := [(Val.str "C", 3), (Val.str "B", 2), (Val.str "A", 1)] } :
          NewsResult)).topTickers.Pairwise (fun a b =>
      newsMeasure dfW "ticker" none b < newsMeasure dfW "ticker" none a ∨
        (newsMeasure dfW "ticker" none b = newsMeasure dfW "ticker" none a ∧
          [b, a] <+ keyVals dfW "ticker")) :=
  ⟨(C4_tie_order_amended dfW "ticker" "date" none 3
      { subset := dfW, topTickers := [Val.str "C", Val.str "B", Val.str "A"] }
      { subset := dfW, topTickers := [Val.str "C", Val.str "B", Val.str "A"]
        totals := [(Val.str "C", 3), (Val.str "B", 2), (Val.str "A", 1)] }).1,
   (C4_tie_order_amended dfW "ticker" "date" none 3
      { subset := dfW, topTickers := [Val.str "C", Val.str "B", Val.str "A"] }
      { subset := dfW, topTickers := [Val.str "C", Val.str "B", Val.str "A"]
        totals := [(Val.str "C", 3), (Val.str "B", 2), (Val.str "A", 1)] }).2.1
      (by decide),
   (C4_tie_order_amended dfW "ticker" "date" none 3
      { subset := dfW, topTickers := [Val.str "C", Val.str "B", Val.str "A"] }
      { subset := dfW, topTickers := [Val.str "C", Val.str "B", Val.str "A"]
        totals := [(Val.str "C", 3), (Val.str "B", 2), (Val.str "A", 1)] }).2.2
      (by decide)⟩

theorem mem_topOf_neg1 {df : DataFrame} {t : String} {m : Val → Int} {v : Val}
    (h : v ∈ keyVals df t) : v ∈ topOf df t m (-1) := by
  rw [topOf_neg1]
  exact (fullRank_perm df t m).mem_iff.mpr h

theorem subset_char (df : DataFrame) (t : String) (m : Val → Int) (n : Int) :
    (subsetOf df t m n).cols = df.cols ∧ (subsetOf df t m n).rows <+ df.rows ∧
    (¬ n = -1 → ∀ row, row ∈ (subsetOf df t m n).rows ↔
        row ∈ df.rows ∧ cellAt df t row ∈ topOf df t m n) ∧
    (n = -1 → subsetOf df t m n = df ∧
      ∀ row ∈ df.rows, cellAt df t row ≠ Val.null →
        cellAt df t row ∈ topOf df t m n) := by
  refine ⟨subsetOf_cols df t m n, subsetOf_rows_sublist df t m n, ?_, ?_⟩
  · intro h row
    exact mem_subsetOf_rows h
  · intro h
    subst h
    refine ⟨subsetOf_neg1 df t m, ?_⟩
    intro row hrow hnn
    exact mem_topOf_neg1 (mem_keyVals.mpr ⟨List.mem_map_of_mem _ hrow, hnn⟩)

/-- C2 (amended): for both rankers the subset keeps the input's columns
and is an order-preserving sublist of the input rows; for `n ≠ -1` it
contains exactly the rows whose key cell is among the returned top
keys; for `n = -1` it is the *entire* input — which, contrary to the
claim as stated, may include rows with a null key cell even though a
null key is never in the returned key list (only the non-null key cells
are guaranteed to be covered by the top keys). -/
theorem C2_subset_rows_amended (df : DataFrame) (t d : String) (ncc : Option String)
    (n : Int) (r : HistoryResult) (rn : NewsResult) :
    (get_top_n_by_history df t d n = Except.ok r →
      r.subset.cols = df.cols ∧ r.subset.rows <+ df.rows ∧
      (¬ n = -1 → ∀ row, row ∈ r.subset.rows ↔
          row ∈ df.rows ∧ cellAt df t row ∈ r.topTickers) ∧
      (n = -1 → r.subset = df ∧
        ∀ row ∈ df.rows, cellAt df t row ≠ Val.null →
          cellAt df t row ∈ r.topTickers)) ∧
    (get_top_n_by_news df t ncc n = Except.ok rn →
      rn.subset.cols = df.cols ∧ rn.subset.rows <+ df.rows ∧
      (¬ n = -1 → ∀ row, row ∈ rn.subset.rows ↔
          row ∈ df.rows ∧ cellAt df t row ∈ rn.topTickers) ∧
      (n = -1 → rn.subset = df ∧
        ∀ row ∈ df.rows, cellAt df t row ≠ Val.null →
          cellAt df t row ∈ rn.topTickers)) := by
  constructor <;> intro h
  · obtain ⟨-, rfl⟩ := hist_ok_iff.mp h
    exact subset_char df t (historyMeasure df t d) n
  · obtain ⟨-, rfl⟩ := news_ok_iff.mp h
    exact subset_char df t (newsMeasure df t ncc) n

/-- C2 witness: on `dfW` with `n = 1` the subset is exactly the
`"C"`-rows; instantiated at one concrete row. -/
theorem C2_subset_rows_witness :
    ([Val.str "C", Val.int 1] ∈
        ({ cols := ["ticker", "date"]
           rows := [[Val.str "C", Val.int 1], [Val.str "C", Val.int 2],
                    [Val.str "C", Val.int 3]] } : DataFrame).rows ↔
      [Val.str "C", Val.int 1] ∈ dfW.rows ∧
        cellAt dfW "ticker" [Val.str "C", Val.int 1] ∈ [Val.str "C"]) ∧
    ({ cols := ["ticker", "date"]
       rows := [[Val.str "C", Val.int 1], [Val.str "C", Val.int 2],
                [Val.str "C", Val.int 3]] } : DataFrame).rows <+ dfW.rows :=
  ⟨(((C2_subset_rows_amended dfW "ticker" "date" none 1
      { subset := { cols := ["ticker", "date"]
                    rows := [[Val.str "C", Val.int 1], [Val.str "C", Val.int 2],
                             [Val.str "C", Val.int 3]] }
        topTickers := [Val.str "C"] }
      { subset := dfW, topTickers := [], totals := [] }).1
        (by decide)).2.2.1 (by decide)) [Val.str "C", Val.int 1],
   ((C2_subset_rows_amended dfW "ticker" "date" none 1
      { subset := { cols := ["ticker", "date"]
                    rows := [[Val.str "C", Val.int 1], [Val.str "C", Val.int 2],
                             [Val.str "C", Val.int 3]] }
        topTickers := [Val.str "C"] }
      { subset := dfW, topTickers := [], totals := [] }).1
        (by decide)).2.1⟩

/-- C2 counterexample: on a frame with a single null-key row, at
`n = -1` the code returns the whole frame as subset while the returned
key list is empty — so the subset is *not* "exactly the rows whose key
value is one of the returned top keys" (that set of rows is empty). -/
theorem C2_counterexample :
    get_top_n_by_history dfNull "t" "date" (-1) =
      Except.ok { subset := dfNull, topTickers := [] } ∧
    dfNull.rows.filter
      (fun row => decide (cellAt dfNull "t" row ∈ ([] : List Val))) = [] ∧
    dfNull.rows ≠ [] := by
  decide

theorem topOf_spec_nonneg (df : DataFrame) (t : String) (m : Val → Int)
    {n : Int} (hn : 0 ≤ n) :
    (topOf df t m n).length = min n.toNat (keyVals df t).length ∧
    ((keyVals df t).length ≤ n.toNat →
      ∀ v, v ∈ topOf df t m n ↔ v ∈ keyVals df t) := by
  have hne : ¬ n = -1 := by omega
  rw [topOf_ne_neg1 hne, if_pos hn]
  constructor
  · rw [List.length_take, (fullRank_perm df t m).length_eq]
  · intro hle v
    rw [List.take_of_length_le (by rw [(fullRank_perm df t m).length_eq]; exact hle)]
    exact (fullRank_perm df t m).mem_iff

/-- C3 (amended): for `n ≥ 0` the returned key list of either ranker
has length `min n k` where `k` is the number of distinct *non-null* key
values (groupby drops null keys, so — contrary to the claim as stated —
null is not counted among the "distinct key values"); it never repeats
a key; and when `n` is at least `k` it covers every group with no error
and no padding. -/
theorem C3_top_length_amended (df : DataFrame) (t d : String) (ncc : Option String)
    (n : Int) (r : HistoryResult) (rn : NewsResult) (hn : 0 ≤ n) :
    (get_top_n_by_history df t d n = Except.ok r →
      r.topTickers.length = min n.toNat (keyVals df t).length ∧
      r.topTickers.Nodup ∧
      ((keyVals df t).length ≤ n.toNat →
        ∀ v, v ∈ r.topTickers ↔ v ∈ keyVals df t)) ∧
    (get_top_n_by_news df t ncc n = Except.ok rn →
      rn.topTickers.length = min n.toNat (keyVals df t).length ∧
      rn.topTickers.Nodup ∧
      ((keyVals df t).length ≤ n.toNat →
        ∀ v, v ∈ rn.topTickers ↔ v ∈ keyVals df t)) := by
  constructor <;> intro h
  · obtain ⟨-, rfl⟩ := hist_ok_iff.mp h
    exact ⟨(topOf_spec_nonneg df t _ hn).1, topOf_nodup df t _ n,
           (topOf_spec_nonneg df t _ hn).2⟩
  · obtain ⟨-, rfl⟩ := news_ok_iff.mp h
    exact ⟨(topOf_spec_nonneg df t _ hn).1, topOf_nodup df t _ n,
           (topOf_spec_nonneg df t _ hn).2⟩

/-- C3 witness: on `dfW` (three groups) with `n = 5` the key list has
length `min 5 3 = 3` and no duplicates. -/
theorem C3_top_length_witness :
    ([Val.str "C", Val.str "B", Val.str "A"] : List Val).length =
      min (5 : Int).toNat (keyVals dfW "ticker").length ∧
    ([Val.str "C", Val.str "B", Val.str "A"] : List Val).Nodup :=
  ⟨((C3_top_length_amended dfW "ticker" "date" none 5
      { subset := dfW
        topTickers := [Val.str "C", Val.str "B", Val.str "A"] }
      { subset := dfW, topTickers := [], totals := [] }
      (by decide)).1 (by decide)).1,
   ((C3_top_length_amended dfW "ticker" "date" none 5
      { subset := dfW
        topTickers := [Val.str "C", Val.str "B", Val.str "A"] }
      { subset := dfW, topTickers := [], totals := [] }
      (by decide)).1 (by decide)).2.1⟩

/-- C3 counterexample: on a frame with one null and one `"A"` key the
column has 2 distinct values, yet at `n = 2` the returned list has
length 1, not `min 2 2 = 2` (the null group is dropped). -/
theorem C3_counterexample :
    get_top_n_by_history dfNull2 "t" "date" 2 =
      Except.ok { subset := { cols := ["t"], rows := [[Val.str "A"]] }
                  topTickers := [Val.str "A"] } ∧
    (colVals dfNull2 "t").dedup.length = 2 ∧
    ([Val.str "A"] : List Val).length = 1 ∧ (1 : Nat) ≠ min 2 2 := by
  decide

/-- C5: whenever `get_top_n_by_news` succeeds, the keys of the returned
totals are exactly the returned top-key list, in the same order, and
each key's value is that group's computed measure. -/
theorem C5_totals_exact (df : DataFrame) (t : String) (ncc : Option String)
    (n : Int) (rn : NewsResult) :
    get_top_n_by_news df t ncc n = Except.ok rn →
      rn.totals.map Prod.fst = rn.topTickers ∧
      ∀ p ∈ rn.totals, p.2 = newsMeasure df t ncc p.1 := by
  intro h
  obtain ⟨-, rfl⟩ := news_ok_iff.mp h
  constructor
  · simp [locSeries, List.map_map, Function.comp_def]
  · intro p hp
    rw [locSeries, List.mem_map] at hp
    obtain ⟨v, hv, rfl⟩ := hp
    exact seriesGet_series (mem_topOf hv)

/-- C5 witness: on `dfW` with `n = 2` the totals are
`[("C", 3), ("B", 2)]`, matching the key list `["C", "B"]`; the value
of `"C"` is its measure. -/
theorem C5_totals_exact_witness :
    ([(Val.str "C", 3), (Val.str "B", 2)] : List (Val × Int)).map Prod.fst =
      [Val.str "C", Val.str "B"] ∧
    ((Val.str "C", 3) : Val × Int).2 =
      newsMeasure dfW "ticker" none ((Val.str "C", 3) : Val × Int).1 :=
  ⟨(C5_totals_exact dfW "ticker" none 2
      { subset := { cols := ["ticker", "date"]
                    rows := [[Val.str "B", Val.int 1], [Val.str "B", Val.int 2],
                             [Val.str "C", Val.int 1], [Val.str "C", Val.int 2],
                             [Val.str "C", Val.int 3]] }
        topTickers := [Val.str "C", Val.str "B"]
        totals := [(Val.str "C", 3), (Val.str "B", 2)] }
      (by decide)).1,
   (C5_totals_exact dfW "ticker" none 2
      { subset := { cols := ["ticker", "date"]
                    rows := [[Val.str "B", Val.int 1], [Val.str "B", Val.int 2],
                             [Val.str "C", Val.int 1], [Val.str "C", Val.int 2],
                             [Val.str "C", Val.int 3]] }
        topTickers := [Val.str "C", Val.str "B"]
        totals := [(Val.str "C", 3), (Val.str "B", 2)] }
      (by decide)).2 (Val.str "C", 3) (by decide)⟩

/-- C8 (amended): at `n = -1` both rankers return the entire dataset
unchanged as subset, and a key list whose set is the set of distinct
*non-null* values of the key column (contrary to the claim as stated, a
null key value — a possible member of "the set of distinct values of K
in D" — is never returned, since groupby drops it). -/
theorem C8_all_groups_amended (df : DataFrame) (t d : String) (ncc : Option String)
    (r : HistoryResult) (rn : NewsResult) :
    (get_top_n_by_history df t d (-1) = Except.ok r →
      r.subset = df ∧
      (∀ v, v ∈ r.topTickers ↔ v ∈ keyVals df t) ∧
      (∀ v, v ∈ keyVals df t ↔ v ∈ colVals df t ∧ v ≠ Val.null)) ∧
    (get_top_n_by_news df t ncc (-1) = Except.ok rn →
      rn.subset = df ∧
      (∀ v, v ∈ rn.topTickers ↔ v ∈ keyVals df t) ∧
      (∀ v, v ∈ keyVals df t ↔ v ∈ colVals df t ∧ v ≠ Val.null)) := by
  constructor <;> intro h
  · obtain ⟨-, rfl⟩ := hist_ok_iff.mp h
    refine ⟨subsetOf_neg1 df t (historyMeasure df t d), ?_, fun v => mem_keyVals⟩
    intro v
    show v ∈ topOf df t (historyMeasure df t d) (-1) ↔ v ∈ keyVals df t
    rw [topOf_neg1]
    exact (fullRank_perm df t _).mem_iff
  · obtain ⟨-, rfl⟩ := news_ok_iff.mp h
    refine ⟨subsetOf_neg1 df t (newsMeasure df t ncc), ?_, fun v => mem_keyVals⟩
    intro v
    show v ∈ topOf df t (newsMeasure df t ncc) (-1) ↔ v ∈ keyVals df t
    rw [topOf_neg1]
    exact (fullRank_perm df t _).mem_iff

/-- C8 witness: on `dfW` at `n = -1` the subset is the whole frame and
`"B"` is among the returned keys exactly as it is among the groups. -/
theorem C8_all_groups_witness :
    ({ subset := dfW
       topTickers := [Val.str "C", Val.str "B", Val.str "A"] } :
        HistoryResult).subset = dfW ∧
    (Val.str "B" ∈
        ({ subset := dfW
           topTickers := [Val.str "C", Val.str "B", Val.str "A"] } :
            HistoryResult).topTickers ↔
      Val.str "B" ∈ keyVals dfW "ticker") :=
  ⟨((C8_all_groups_amended dfW "ticker" "date" none
      { subset := dfW
        topTickers := [Val.str "C", Val.str "B", Val.str "A"] }
      { subset := dfW, topTickers := [], totals := [] }).1 (by decide)).1,
   ((C8_all_groups_amended dfW "ticker" "date" none
      { subset := dfW
        topTickers := [Val.str "C", Val.str "B", Val.str "A"] }
      { subset := dfW, topTickers := [], totals := [] }).1 (by decide)).2.1
      (Val.str "B")⟩

/-- C8 counterexample: on the single-null-key frame at `n = -1` the
subset is the whole frame but the key list is empty, while the set of
distinct values of the key column is `{null}` — the claimed set
equality fails. -/
theorem C8_counterexample :
    get_top_n_by_history dfNull "t" "date" (-1) =
      Except.ok { subset := dfNull, topTickers := [] } ∧
    Val.null ∈ (colVals dfNull "t").dedup ∧
    Val.null ∉ ([] : List Val) := by
  decide

theorem topOf_neg_lt (df : DataFrame) (t : String) (m : Val → Int)
    {n : Int} (hn : n < -1) :
    topOf df t m n =
      (topOf df t m (-1)).take ((keyVals df t).length - (-n).toNat) := by
  have hne : ¬ n = -1 := by omega
  rw [topOf_ne_neg1 hne, if_neg (by omega), topOf_neg1,
    (fullRank_perm df t m).length_eq]

theorem topOf_neg_empty (df : DataFrame) (t : String) (m : Val → Int)
    {n : Int} (hn : n < -1) (h : (keyVals df t).length ≤ (-n).toNat) :
    topOf df t m n = [] := by
  rw [topOf_neg_lt df t m hn, Nat.sub_eq_zero_of_le h, List.take_zero]

/-- C10: for `n < -1` neither ranker errors; `head(n)` with negative
`n` keeps all but the last `|n|` entries, so the returned key list is
the full descending ranking (the `n = -1` list) minus its `|n|`
lowest-ranked tail — empty when `|n|` is at least the number of groups
— and the subset is the rows whose key is among those keys. -/
theorem C10_head_negative (df : DataFrame) (t d : String) (ncc : Option String)
    (n : Int) (r : HistoryResult) (rn : NewsResult) (hn : n < -1) :
    (t ∈ df.cols →
      exceptErr (get_top_n_by_history df t d n) = none ∧
      exceptErr (get_top_n_by_news df t ncc n) = none) ∧
    (get_top_n_by_history df t d n = Except.ok r →
      r.topTickers =
        (topOf df t (historyMeasure df t d) (-1)).take
          ((keyVals df t).length - (-n).toNat) ∧
      ((keyVals df t).length ≤ (-n).toNat → r.topTickers = []) ∧
      ∀ row, row ∈ r.subset.rows ↔
        row ∈ df.rows ∧ cellAt df t row ∈ r.topTickers) ∧
    (get_top_n_by_news df t ncc n = Except.ok rn →
      rn.topTickers =
        (topOf df t (newsMeasure df t ncc) (-1)).take
          ((keyVals df t).length - (-n).toNat) ∧
      ((keyVals df t).length ≤ (-n).toNat → rn.topTickers = []) ∧
      ∀ row, row ∈ rn.subset.rows ↔
        row ∈ df.rows ∧ cellAt df t row ∈ rn.topTickers) := by
  refine ⟨?_, ?_, ?_⟩
  · intro ht
    unfold get_top_n_by_history get_top_n_by_news
    rw [if_pos ht, if_pos ht]
    exact ⟨rfl, rfl⟩
  · intro h
    obtain ⟨-, rfl⟩ := hist_ok_iff.mp h
    exact ⟨topOf_neg_lt df t _ hn,
           fun hle => topOf_neg_empty df t _ hn hle,
           fun row => mem_subsetOf_rows (by omega)⟩
  · intro h
    obtain ⟨-, rfl⟩ := news_ok_iff.mp h
    exact ⟨topOf_neg_lt df t _ hn,
           fun hle => topOf_neg_empty df t _ hn hle,
           fun row => mem_subsetOf_rows (by omega)⟩

/-- C10 witness: on `dfW` (three groups `["C", "B", "A"]` by measure)
with `n = -2`, no error is raised and the key list is the full ranking
minus its two lowest-ranked entries, i.e. `["C"]`. -/
theorem C10_head_negative_witness :
    exceptErr (get_top_n_by_history dfW "ticker" "date" (-2)) = none ∧
    ([Val.str "C"] : List Val) =
      (topOf dfW "ticker" (historyMeasure dfW "ticker" "date") (-1)).take
        ((keyVals dfW "ticker").length - ((-(-2 : Int)).toNat)) :=
  ⟨((C10_head_negative dfW "ticker" "date" none (-2)
      { subset := { cols := ["ticker", "date"]
                    rows := [[Val.str "C", Val.int 1], [Val.str "C", Val.int 2],
                             [Val.str "C", Val.int 3]] }
        topTickers := [Val.str "C"] }
      { subset := { cols := ["ticker", "date"]
                    rows := [[Val.str "C", Val.int 1], [Val.str "C", Val.int 2],
                             [Val.str "C", Val.int 3]] }
        topTickers := [Val.str "C"]
        totals := [(Val.str "C", 3)] }
      (by decide)).1 (by decide)).1,
   ((C10_head_negative dfW "ticker" "date" none (-2)
      { subset := { cols := ["ticker", "date"]
                    rows := [[Val.str "C", Val.int 1], [Val.str "C", Val.int 2],
                             [Val.str "C", Val.int 3]] }
        topTickers := [Val.str "C"] }
      { subset := { cols := ["ticker", "date"]
                    rows := [[Val.str "C", Val.int 1], [Val.str "C", Val.int 2],
                             [Val.str "C", Val.int 3]] }
        topTickers := [Val.str "C"]
        totals := [(Val.str "C", 3)] }
      (by decide)).2.1 (by decide)).1⟩
